import Mathlib

/-!
Shallow embedding of the `dogtail` log-tailing tool (Rust), covering the
parts of `src/lib.rs`, `src/logs.rs`, `src/tailer.rs` and
`src/bin/dogtail.rs` that the verified properties are about:

* a JSON value model standing in for `serde_json::Value`;
* `JsonKey` (dotted-path accessor, `src/lib.rs`);
* `unpack_tags` and `LogSource::extract_results` (`src/logs.rs`), with the
  `event["id"].as_str().unwrap()` panic modelled explicitly;
* `LogFormat` and its text formatter (`src/logs.rs`), with the
  `keys.split_first().unwrap()` panic modelled as `Option.none`;
* the `Follow` / `Snapshot` window generators and
  `LogSource::construct_query` (`src/logs.rs`), with `Utc::now()` passed
  in as an explicit integer timestamp (seconds);
* `OutputMode::get_sink_id` (`src/bin/dogtail.rs`);
* `RateLimitStatus::scale_remaining_by` (`src/tailer.rs`), with the `f32`
  millisecond arithmetic modelled exactly over `ℚ` (the truncation to
  whole milliseconds and the two separate `Instant::now()` reads are
  elided; `Instant::duration_since` saturates at zero, which is kept);
* the `Tailer::run_query` / `Tailer::tail` polling loop (`src/tailer.rs`)
  as a deterministic step machine driven by a script of responses.
-/

namespace Dogtail

/-- JSON values, standing in for `serde_json::Value`.  Objects are
association lists; numbers are modelled as integers (no claim exercises
non-integer payloads).  `serde_json`'s map iteration/storage order is not
modelled: no verified property depends on the order of object fields
produced by `unpack_tags`. -/
inductive Json where
  | null : Json
  | bool (b : Bool) : Json
  | num (n : Int) : Json
  | str (s : String) : Json
  | arr (elems : List Json) : Json
  | obj (fields : List (String × Json)) : Json
  deriving Repr

/-- Field lookup on an object, `Value::get(&str)`: `none` unless the value
is an object with the field (first binding wins). -/
def Json.get : Json → String → Option Json
  | .obj fields, k => (fields.find? (fun p => p.1 = k)).map Prod.snd
  | _, _ => none

/-- Read-indexing `value[key]`, the `Index<&str>` impl on `Value`:
yields `Null` when the field is absent or the value is not an object. -/
def Json.index (j : Json) (k : String) : Json :=
  (j.get k).getD .null

/-- `Value::as_str`. -/
def Json.asStr : Json → Option String
  | .str s => some s
  | _ => none

/-- `Value::as_array` (and `as_array_mut`, for shape purposes). -/
def Json.asArr : Json → Option (List Json)
  | .arr elems => some elems
  | _ => none

/-- Replace the first binding of a key in a field list, or append one. -/
def setFieldList : List (String × Json) → String → Json → List (String × Json)
  | [], k, v => [(k, v)]
  | (k', v') :: rest, k, v =>
      if k' = k then (k, v) :: rest else (k', v') :: setFieldList rest k v

/-- Replace the value of a field of an object (first binding), appending
when absent — the write part of `value[key] = v` (`IndexMut<&str>`).  The
only call site (`unpack_tags`) is guarded so that the target is always an
object already holding the field; on a non-object the Rust impl would
panic or auto-vivify, which is unreachable there, so non-objects are
returned unchanged. -/
def Json.setField : Json → String → Json → Json
  | .obj fields, k, v => .obj (setFieldList fields k v)
  | j, _, _ => j

/-- Split a character list at every occurrence of `c` (the segments do
not contain `c`; `n` separators yield `n + 1` segments, an empty input
yields one empty segment) — Rust's `str::split(char)`. -/
def splitChars (c : Char) : List Char → List (List Char)
  | [] => [[]]
  | x :: xs =>
      match splitChars c xs with
      | [] => [[]]
      | h :: t => if x = c then [] :: h :: t else (x :: h) :: t

/-- Rust's `str::split(c)` as a string-level operation. -/
def splitOnChar (c : Char) (s : String) : List String :=
  (splitChars c s.toList).map (fun cs => String.mk cs)

/-- Dotted-path accessor, `JsonKey` from `src/lib.rs`. -/
structure JsonKey where
  keys : List String
  deriving Repr

/-- `JsonKey::from(&str)` / `From<String>`: split on `'.'`. -/
def JsonKey.fromString (s : String) : JsonKey :=
  ⟨splitOnChar '.' s⟩

/-- `JsonKey::get`: chain of `Value::get` lookups; any absent segment
short-circuits to `none`. -/
def JsonKey.get (k : JsonKey) (event : Json) : Option Json :=
  k.keys.foldl (fun cur key => cur.bind (fun j => j.get key)) (some event)

/-- `HashMap::insert` on a string-keyed map modelled as an association
list: the value of an existing key is replaced, a new key is appended.
(The hash map's iteration order is arbitrary in Rust; this model fixes
first-insertion order, on which no verified property depends.) -/
def insertTag : List (String × String) → String → String → List (String × String)
  | [], k, v => [(k, v)]
  | (k', v') :: rest, k, v =>
      if k' = k then (k, v) :: rest else (k', v') :: insertTag rest k v

/-- `unpack_tags` from `src/logs.rs`: when `event["attributes"]["tags"]`
is an array, rewrite it into a map built from each `"key:value"` string
element (`split(':')`: first segment is the key, second segment or `""`
is the value; non-string elements are skipped); otherwise leave the event
unchanged. -/
def unpack_tags (event : Json) : Json :=
  match ((event.index "attributes").index "tags").asArr with
  | none => event
  | some tags =>
      let unpacked := tags.foldl
        (fun acc tag =>
          match tag.asStr with
          | some s =>
              let parts := splitOnChar ':' s
              insertTag acc (parts.headD "") ((parts.drop 1).headD "")
          | none => acc) []
      let tagObj := Json.obj (unpacked.map (fun p => (p.1, Json.str p.2)))
      event.setField "attributes" ((event.index "attributes").setField "tags" tagObj)

/-- Outcome of `LogSource::extract_results`: success with the kept events
and the updated seen-ID set, the `anyhow` error for a non-array `data`
field, or a panic (`event["id"].as_str().unwrap()` on a missing or
non-string id). -/
inductive ExtractOut where
  | ok (events : List Json) (seen : List String) : ExtractOut
  | schemaError (msg : String) : ExtractOut
  | panicked : ExtractOut
  deriving Repr

/-- The `events.retain(|event| self.seen_event_ids.insert(...))` pass:
process events in order; an event whose `id` is missing or not a string
panics (`none`); an id already seen is dropped; a novel id is recorded
and the event kept. -/
def dedupEvents : List String → List Json → Option (List Json × List String)
  | seen, [] => some ([], seen)
  | seen, e :: rest =>
      match (e.index "id").asStr with
      | none => none
      | some id =>
          if seen.contains id then
            dedupEvents seen rest
          else
            (dedupEvents (id :: seen) rest).map (fun p => (e :: p.1, p.2))

/-- `LogSource::extract_results` from `src/logs.rs`.  A missing `data`
field yields `Ok(vec![])`; a present but non-array `data` yields the
`anyhow` error `"Log query data not a list"`; otherwise every element is
passed through `unpack_tags` and then dedup-filtered against (and
recorded into) the seen-ID set. -/
def extract_results (seen : List String) (body : Json) : ExtractOut :=
  match body.get "data" with
  | none => .ok [] seen
  | some d =>
      match d.asArr with
      | none => .schemaError "Log query data not a list"
      | some events =>
          match dedupEvents seen (events.map unpack_tags) with
          | none => .panicked
          | some (kept, seen') => .ok kept seen'

/-- `LogSource::get_batch_size`. -/
def get_batch_size : Nat := 1000

/-- Feed a sequence of response bodies to one `LogSource`
(`extract_results` threaded through the seen-ID set, starting from the
given set); `none` as soon as one call panics or errors. -/
def runExtracts : List String → List Json → Option (List Json × List String)
  | seen, [] => some ([], seen)
  | seen, body :: rest =>
      match extract_results seen body with
      | .ok evs seen' => (runExtracts seen' rest).map (fun p => (evs ++ p.1, p.2))
      | _ => none

/-- The id under which a kept event was recorded. -/
def idOf (e : Json) : String :=
  ((e.index "id").asStr).getD ""

/-! ### Event formatting (`LogFormat`, `src/logs.rs`) -/

/-- `format!("{:?}", value)` — the `Debug` rendering of a
`serde_json::Value`, used by `format_text` for non-string values.  No
verified property depends on its exact shape (string values never reach
it), so nested values are rendered with the same constructor-name style
`serde_json` uses at the leaves. -/
def debugRepr : Json → String
  | .null => "Null"
  | .bool true => "Bool(true)"
  | .bool false => "Bool(false)"
  | .num n => "Number(" ++ toString n ++ ")"
  | .str s => "String(\x22" ++ s ++ "\x22)"
  | .arr elems =>
      "Array [" ++
        String.intercalate ", " (elems.attach.map (fun e => debugRepr e.1)) ++ "]"
  | .obj fields =>
      "Object \x7b" ++
        String.intercalate ", "
          (fields.attach.map
            (fun p => "\x22" ++ p.1.1 ++ "\x22: " ++ debugRepr p.1.2)) ++ "\x7d"
  decreasing_by
  · simp_wf
    have := List.sizeOf_lt_of_mem e.2
    omega
  · simp_wf
    have h1 := List.sizeOf_lt_of_mem p.2
    obtain ⟨⟨a, b⟩, hm⟩ := p
    simp at h1 ⊢
    omega

/-- JSON string escaping (only `"` and `\` modelled). -/
def escapeJsonString (s : String) : String :=
  "\x22" ++ (s.toList.foldl (fun acc c =>
    if c = '\x22' then acc ++ "\\\x22"
    else if c = '\\' then acc ++ "\\\\"
    else acc.push c) "") ++ "\x22"

/-- `serde_json::to_string` — compact serialization, used by the
`Structured` branch of `LogFormat::format`.  No verified property
inspects this output. -/
def jsonToString : Json → String
  | .null => "null"
  | .bool true => "true"
  | .bool false => "false"
  | .num n => toString n
  | .str s => escapeJsonString s
  | .arr elems =>
      "[" ++ String.intercalate "," (elems.attach.map (fun e => jsonToString e.1)) ++ "]"
  | .obj fields =>
      "\x7b" ++
        String.intercalate ","
          (fields.attach.map
            (fun p => escapeJsonString p.1.1 ++ ":" ++ jsonToString p.1.2)) ++ "\x7d"
  decreasing_by
  · simp_wf
    have := List.sizeOf_lt_of_mem e.2
    omega
  · simp_wf
    have h1 := List.sizeOf_lt_of_mem p.2
    obtain ⟨⟨a, b⟩, hm⟩ := p
    simp at h1 ⊢
    omega

/-- `LogFormat` from `src/logs.rs`. -/
inductive LogFormat where
  | text (sep : String) (keys : List JsonKey) : LogFormat
  | structured : LogFormat

/-- One looked-up key rendered by `LogFormat::format_text`: a string
value is emitted literally, any other value via its `Debug`
representation, and a missing path as the literal `KEY_NOT_FOUND`. -/
def renderKey (event : Json) (k : JsonKey) : String :=
  match k.get event with
  | some v => (v.asStr).getD (debugRepr v)
  | none => "KEY_NOT_FOUND"

/-- `LogFormat::format_text`: `keys.split_first().unwrap()` panics on an
empty key list (modelled as `none`); otherwise the first key's rendering
followed by `sep ++ rendering` for each remaining key. -/
def format_text (sep : String) (keys : List JsonKey) (event : Json) : Option String :=
  match keys with
  | [] => none
  | first :: rest =>
      some (rest.foldl (fun out k => out ++ sep ++ renderKey event k) (renderKey event first))

/-- `LogFormat::format`. -/
def LogFormat.format (f : LogFormat) (event : Json) : Option String :=
  match f with
  | .text sep keys => format_text sep keys event
  | .structured => some (jsonToString event)

/-- `LogFormat::default()`: separator `" | "`, keys
`attributes.timestamp`, `attributes.status`, `attributes.message`. -/
def LogFormat.default : LogFormat :=
  .text " | "
    [JsonKey.fromString "attributes.timestamp",
     JsonKey.fromString "attributes.status",
     JsonKey.fromString "attributes.message"]

/-- Rust's `str::lines`: split on `'\n'`, drop a final empty segment
produced by a trailing newline, strip a trailing `'\r'` from each line.
In particular `"".lines()` yields no lines at all. -/
def rustLines (s : String) : List String :=
  let parts := splitChars '\n' s.toList
  let parts := if parts.getLast? = some [] then parts.dropLast else parts
  parts.map (fun cs =>
    String.mk (if cs.getLast? = some '\r' then cs.dropLast else cs))

/-- The pure core of `get_format_config` (`src/bin/dogtail.rs`) applied
to the contents of a supplied format file: one `JsonKey` per line, joined
by `" | "`.  (When no file is supplied the function returns
`LogFormat.default` instead.) -/
def format_config_of_contents (buf : String) : LogFormat :=
  .text " | " ((rustLines buf).map JsonKey.fromString)

/-! ### Output partitioning (`OutputMode`, `src/bin/dogtail.rs`) -/

/-- The CLI `Mode` value (`-o` flag): partitioned files vs. stdout. -/
inductive Mode where
  | file : Mode
  | stdout : Mode
  deriving DecidableEq, Repr

/-- `OutputMode` from `src/bin/dogtail.rs`. -/
structure OutputMode where
  mode : Mode
  split_key : Option JsonKey
  format : LogFormat
  default : String

/-- `OutputMode::get_sink_id`: with no split key configured, the
configured default; otherwise the split-key lookup when it yields a
string, falling back to the default. -/
def get_sink_id (o : OutputMode) (event : Json) : String :=
  match o.split_key with
  | none => o.default
  | some key => (((key.get event).bind Json.asStr)).getD o.default

/-! ### Window generators and query construction (`src/logs.rs`)

`Utc::now()` is modelled as an explicit integer timestamp (seconds)
supplied at each call; `Follow::new`'s two consecutive `Utc::now()` reads
are modelled as the single instant at which the generator is started. -/

/-- The `Follow` window generator state. -/
structure Follow where
  next_window_start : Int
  next_window_end : Option Int
  deriving Repr, DecidableEq

/-- `Follow::new(initial_window)` started at instant `now`. -/
def Follow.new (now : Int) (initial_window : Nat) : Follow :=
  { next_window_start := now - (initial_window : Int), next_window_end := some now }

/-- `<Follow as Iterator>::next`: always yields a window; the stored end
(or, once taken, the current instant) becomes the window end, and the
next window will start ten seconds before that end. -/
def Follow.next (f : Follow) (now : Int) : (Int × Int) × Follow :=
  let start := f.next_window_start
  let e := f.next_window_end.getD now
  ((start, e), { next_window_start := e - 10, next_window_end := none })

/-- The `Snapshot` window generator state. -/
structure Snapshot where
  next_window_start : Int
  next_window_end : Option Int
  deriving Repr, DecidableEq

/-- `Snapshot::new(from, window)`. -/
def Snapshot.new (from_ : Int) (window : Nat) : Snapshot :=
  { next_window_start := from_, next_window_end := some (from_ + (window : Int)) }

/-- `<Snapshot as Iterator>::next`: `self.next_window_end.take()?` — the
single stored window, then `none` forever (the state is unchanged once
the end has been taken). -/
def Snapshot.next (s : Snapshot) : Option ((Int × Int) × Snapshot) :=
  match s.next_window_end with
  | none => none
  | some e => some ((s.next_window_start, e), { s with next_window_end := none })

/-- The two `Mode` type parameters of `LogSource` collapsed into one
tagged value (they share the `Iterator<Item = (DateTime, DateTime)>`
contract). -/
inductive WindowMode where
  | follow (f : Follow) : WindowMode
  | snapshot (s : Snapshot) : WindowMode
  deriving Repr, DecidableEq

/-- `self.mode.next()` inside `construct_query`. -/
def WindowMode.next (m : WindowMode) (now : Int) : Option ((Int × Int) × WindowMode) :=
  match m with
  | .follow f => some ((f.next now).1, .follow (f.next now).2)
  | .snapshot s => (s.next).map (fun p => (p.1, .snapshot p.2))

/-- The mutable state of a `LogSource`. -/
structure LogSourceState where
  search_url : String
  query : String
  seen_event_ids : List String
  mode : WindowMode

/-- `LogSource::new(dd_domain, query, mode)`. -/
def LogSourceState.new (dd_domain query : String) (mode : WindowMode) : LogSourceState :=
  { search_url := "https://" ++ dd_domain ++ "/api/v2/logs/events/search"
    query := query
    seen_event_ids := []
    mode := mode }

/-- A request issued by the tailer: the windowed `POST` search built by
`construct_query` (its JSON body flattened to the fields that vary), or
the `GET` of a continuation URL. -/
inductive Request where
  | search (url : String) (start stop : Int) (query : String) (limit : Nat) : Request
  | getUrl (url : String) : Request
  deriving Repr, DecidableEq

/-- `LogSource::construct_query`: consume the next window from the mode
generator (returning `none`, which stops the tailer, when the generator
is exhausted) and build the search request over it. -/
def construct_query (src : LogSourceState) (now : Int) :
    Option (Request × LogSourceState) :=
  match src.mode.next now with
  | none => none
  | some ((start, stop), mode') =>
      some (.search src.search_url start stop src.query get_batch_size,
            { src with mode := mode' })

/-! ### Rate limiting (`RateLimitStatus`, `src/tailer.rs`)

Instants and durations are rationals measured in milliseconds.  The
`f32` arithmetic of `scale_remaining_by` is modelled exactly over `ℚ`;
the final truncation to whole milliseconds (`wait as u64`) and the two
separate `Instant::now()` reads inside the method are elided — `now` is
the single instant at which the method runs.  `Instant::duration_since`
saturates at zero, which is kept (`max _ 0`). -/

/-- `RateLimitStatus`: parsed from the `x-ratelimit-*` response headers;
`next_request_allowed` starts as the header-derived reset instant
(`now + reset_in_seconds`). -/
structure RateLimitStatus where
  period : ℚ
  remaining_budget : Nat
  next_request_allowed : ℚ

/-- `RateLimitStatus::from(&Response)` at instant `now`, from the parsed
`x-ratelimit-period` (seconds), `x-ratelimit-remaining` and
`x-ratelimit-reset` (seconds) headers. -/
def RateLimitStatus.ofHeaders (now : ℚ) (period_s remaining reset_s : Nat) :
    RateLimitStatus :=
  { period := (period_s : ℚ) * 1000
    remaining_budget := remaining
    next_request_allowed := now + (reset_s : ℚ) * 1000 }

/-- `RateLimitStatus::scale_remaining_by(returned, limit)` run at instant
`now`: when budget remains, replace `next_request_allowed` by `now` plus
the desired wait `period * (1 - returned/limit)` capped by the time
remaining until the current `next_request_allowed` (saturated at zero)
and clamped to be non-negative; when the budget is exhausted, change
nothing. -/
def scale_remaining_by (s : RateLimitStatus) (now : ℚ) (returned limit : Nat) :
    RateLimitStatus :=
  let useful_results_factor : ℚ := (returned : ℚ) / (limit : ℚ)
  let desired_wait : ℚ := s.period * (1 - useful_results_factor)
  if s.remaining_budget > 0 then
    let wait := max (min desired_wait (max (s.next_request_allowed - now) 0)) 0
    { s with next_request_allowed := now + wait }
  else s

/-! ### The polling loop (`Tailer::run_query` / `Tailer::tail`,
`src/tailer.rs`) as a step machine

Each step issues the pending request and consumes one scripted response.
Rate limiting only affects *when* requests are sent, never *which*
requests are sent, so `RateLimitStatus` is not threaded through the
machine; `Utc::now()` at each step comes from the script. -/

/-- An HTTP response as the loop observes it: status code and JSON body. -/
structure Response where
  status : Nat
  body : Json

/-- `StatusCode::is_success`. -/
def Response.isSuccess (r : Response) : Bool :=
  200 ≤ r.status && r.status < 300

/-- `Source::extract_next` (default impl, `src/lib.rs`): the string at
`links.next`, `none` when absent, error when present but not a string. -/
def extract_next (body : Json) : Except String (Option String) :=
  match (body.get "links").bind (fun l => l.get "next") with
  | none => .ok none
  | some v =>
      match v.asStr with
      | some s => .ok (some s)
      | none => .error "Next url not a string"

/-- The control position of the polling loop between two HTTP
round-trips. -/
inductive Phase where
  /-- About to start a `run_query` iteration: construct a fresh windowed
  search. -/
  | start (src : LogSourceState) : Phase
  /-- Inside the continuation loop: about to `GET` `url`. -/
  | paging (url : String) (src : LogSourceState) : Phase
  /-- `construct_query` returned `None`: the tailer stopped normally. -/
  | stopped : Phase
  /-- A fatal error (non-429 failure status, schema error, bad next
  url): `run_query` returned `Err`, the tailer stopped. -/
  | failed : Phase
  /-- A panic inside `extract_results`. -/
  | panicked : Phase

/-- The request the machine will issue next, if any (`construct_query`
for a fresh iteration, the continuation `GET` inside the paging loop). -/
def pendingRequest (p : Phase) (now : Int) : Option Request :=
  match p with
  | .start src => (construct_query src now).map Prod.fst
  | .paging url _ => some (.getUrl url)
  | _ => none

/-- Shared success path of both call sites: `extract_next` on the body,
then `extract_results` (which advances the seen-ID set), then either hop
to the continuation URL or finish the iteration. -/
def handleBody (src : LogSourceState) (body : Json) : Phase × List Json :=
  match extract_next body with
  | .error _ => (.failed, [])
  | .ok nextUrl =>
      match extract_results src.seen_event_ids body with
      | .panicked => (.panicked, [])
      | .schemaError _ => (.failed, [])
      | .ok events seen' =>
          let src' := { src with seen_event_ids := seen' }
          match nextUrl with
          | some url => (.paging url src', events)
          | none => (.start src', events)

/-- One round-trip of the polling loop at instant `now`, given the
response the server sends: issue the pending request, dispatch on the
status (`429` is absorbed — `handle_error` returns `Ok` and the loop
retries; any other failure status is fatal), and on success process the
body.  Crucially, at `start` the window generator is consumed by
`construct_query` *before* the response status is known. -/
def stepPhase (p : Phase) (now : Int) (resp : Response) : Phase × List Json :=
  match p with
  | .start src =>
      match construct_query src now with
      | none => (.stopped, [])
      | some (_, src') =>
          if resp.isSuccess then handleBody src' resp.body
          else if resp.status = 429 then (.start src', [])
          else (.failed, [])
  | .paging url src =>
      if resp.isSuccess then handleBody src resp.body
      else if resp.status = 429 then (.paging url src, [])
      else (.failed, [])
  | p => (p, [])

/-- Drive the machine over a script of `(now, response)` pairs,
collecting the requests actually issued and the events pushed onto the
output queue, stopping as soon as no request is pending. -/
def runTailer (p : Phase) : List (Int × Response) → List Request × List Json
  | [] => ([], [])
  | (now, resp) :: rest =>
      match pendingRequest p now with
      | none => ([], [])
      | some req =>
          let next := stepPhase p now resp
          let tail := runTailer next.1 rest
          (req :: tail.1, next.2 ++ tail.2)

/-! ## Lemmas about tag unpacking and deduplication -/

/-- Overwriting one field leaves every other field's lookup unchanged. -/
lemma find?_setFieldList_ne (fields : List (String × Json)) (k k' : String) (v : Json)
    (h : k ≠ k') :
    (setFieldList fields k' v).find? (fun p => p.1 = k) =
      fields.find? (fun p => p.1 = k) := by
  induction fields with
  | nil => simp [setFieldList, List.find?, h.symm]
  | cons hd tl ih =>
      by_cases hk : hd.1 = k'
      · obtain ⟨a, b⟩ := hd
        simp only at hk
        subst hk
        simp [setFieldList, List.find?, h.symm]
      · obtain ⟨a, b⟩ := hd
        simp only at hk
        simp only [setFieldList, if_neg hk, List.find?]
        by_cases hak : a = k
        · simp [hak]
        · simp [hak, ih]

/-- `setField` on one key does not change `get` on a different key. -/
lemma get_setField_ne (j : Json) (k k' : String) (v : Json) (h : k ≠ k') :
    (j.setField k' v).get k = j.get k := by
  cases j <;> simp [Json.setField, Json.get]
  exact congrArg _ (find?_setFieldList_ne _ _ _ _ h)

/-- `unpack_tags` only rewrites `attributes.tags`; the `id` field read by
the dedup filter is untouched. -/
lemma unpack_tags_index_id (e : Json) :
    (unpack_tags e).index "id" = e.index "id" := by
  unfold unpack_tags
  cases hguard : ((e.index "attributes").index "tags").asArr with
  | none => rfl
  | some tags =>
      simp only [Json.index]
      rw [get_setField_ne]
      decide

/-- Unfolding: a missing or non-string id panics the retain pass. -/
lemma dedupEvents_cons_bad (seen : List String) (e : Json) (rest : List Json)
    (hid : (e.index "id").asStr = none) :
    dedupEvents seen (e :: rest) = none := by
  simp [dedupEvents, hid]

/-- Unfolding: an already-seen id drops the event. -/
lemma dedupEvents_cons_seen (seen : List String) (e : Json) (rest : List Json) (id : String)
    (hid : (e.index "id").asStr = some id) (hc : seen.contains id = true) :
    dedupEvents seen (e :: rest) = dedupEvents seen rest := by
  simp only [dedupEvents, hid]
  rw [if_pos hc]

/-- Unfolding: a novel id keeps the event and records the id. -/
lemma dedupEvents_cons_new (seen : List String) (e : Json) (rest : List Json) (id : String)
    (hid : (e.index "id").asStr = some id) (hc : ¬ seen.contains id = true) :
    dedupEvents seen (e :: rest) =
      (dedupEvents (id :: seen) rest).map (fun p => (e :: p.1, p.2)) := by
  simp only [dedupEvents, hid]
  rw [if_neg hc]

/-- The seen-ID set only grows during the retain pass. -/
lemma dedupEvents_seen_subset :
    ∀ (es : List Json) (seen : List String) (kept : List Json) (seen' : List String),
    dedupEvents seen es = some (kept, seen') → ∀ x ∈ seen, x ∈ seen' := by
  intro es
  induction es with
  | nil =>
      intro seen kept seen' h x hx
      simp only [dedupEvents, Option.some.injEq, Prod.mk.injEq] at h
      exact h.2 ▸ hx
  | cons e rest ih =>
      intro seen kept seen' h x hx
      cases hid : (e.index "id").asStr with
      | none => rw [dedupEvents_cons_bad seen e rest hid] at h; exact Option.noConfusion h
      | some id =>
          by_cases hc : seen.contains id = true
          · rw [dedupEvents_cons_seen seen e rest id hid hc] at h
            exact ih seen kept seen' h x hx
          · rw [dedupEvents_cons_new seen e rest id hid hc] at h
            cases hrec : dedupEvents (id :: seen) rest with
            | none => rw [hrec] at h; exact Option.noConfusion h
            | some p =>
                rw [hrec] at h
                simp only [Option.map_some', Option.some.injEq] at h
                have := ih (id :: seen) p.1 p.2 (by rw [hrec]) x (by simp [hx])
                cases h
                exact this

/-- Every event kept by the retain pass has a string id that was not in
the incoming seen set and is recorded into the outgoing one. -/
lemma dedupEvents_kept :
    ∀ (es : List Json) (seen : List String) (kept : List Json) (seen' : List String),
    dedupEvents seen es = some (kept, seen') →
    ∀ e ∈ kept, (e.index "id").asStr = some (idOf e) ∧
      idOf e ∉ seen ∧ idOf e ∈ seen' := by
  intro es
  induction es with
  | nil =>
      intro seen kept seen' h e he
      simp only [dedupEvents, Option.some.injEq, Prod.mk.injEq] at h
      rw [← h.1] at he
      exact absurd he (List.not_mem_nil e)
  | cons a rest ih =>
      intro seen kept seen' h e he
      cases hid : (a.index "id").asStr with
      | none => rw [dedupEvents_cons_bad seen a rest hid] at h; exact Option.noConfusion h
      | some id =>
          by_cases hc : seen.contains id = true
          · rw [dedupEvents_cons_seen seen a rest id hid hc] at h
            exact ih seen kept seen' h e he
          · rw [dedupEvents_cons_new seen a rest id hid hc] at h
            cases hrec : dedupEvents (id :: seen) rest with
            | none => rw [hrec] at h; exact Option.noConfusion h
            | some p =>
                rw [hrec] at h
                simp only [Option.map_some', Option.some.injEq] at h
                cases h
                rcases List.mem_cons.mp he with rfl | hmem
                · have hide : idOf e = id := by simp [idOf, hid]
                  refine ⟨by simp [idOf, hid], ?_, ?_⟩
                  · rw [hide]
                    simpa using hc
                  · rw [hide]
                    exact dedupEvents_seen_subset rest (id :: seen) p.1 p.2
                      (by rw [hrec]) id (by simp)
                · have := ih (id :: seen) p.1 p.2 (by rw [hrec]) e hmem
                  exact ⟨this.1, fun hx => this.2.1 (by simp [hx]), this.2.2⟩

/-- The ids of the events kept by one retain pass are pairwise distinct. -/
lemma dedupEvents_nodup :
    ∀ (es : List Json) (seen : List String) (kept : List Json) (seen' : List String),
    dedupEvents seen es = some (kept, seen') → (kept.map idOf).Nodup := by
  intro es
  induction es with
  | nil =>
      intro seen kept seen' h
      simp only [dedupEvents, Option.some.injEq, Prod.mk.injEq] at h
      rw [← h.1]
      simp
  | cons a rest ih =>
      intro seen kept seen' h
      cases hid : (a.index "id").asStr with
      | none => rw [dedupEvents_cons_bad seen a rest hid] at h; exact Option.noConfusion h
      | some id =>
          by_cases hc : seen.contains id = true
          · rw [dedupEvents_cons_seen seen a rest id hid hc] at h
            exact ih seen kept seen' h
          · rw [dedupEvents_cons_new seen a rest id hid hc] at h
            cases hrec : dedupEvents (id :: seen) rest with
            | none => rw [hrec] at h; exact Option.noConfusion h
            | some p =>
                rw [hrec] at h
                simp only [Option.map_some', Option.some.injEq] at h
                cases h
                simp only [List.map_cons, List.nodup_cons]
                refine ⟨?_, ih (id :: seen) p.1 p.2 (by rw [hrec])⟩
                intro hmem
                rcases List.mem_map.mp hmem with ⟨e, he, heq⟩
                have hk := dedupEvents_kept rest (id :: seen) p.1 p.2 (by rw [hrec]) e he
                have hida : idOf a = id := by simp [idOf, hid]
                rw [hida] at heq
                exact hk.2.1 (by simp [heq])

/-- A successful `extract_results` call: the seen set only grows, every
emitted event has a novel string id now recorded, and the emitted ids are
pairwise distinct. -/
lemma extract_results_spec (seen : List String) (body : Json) (evs : List Json)
    (seen' : List String) (h : extract_results seen body = .ok evs seen') :
    (∀ x ∈ seen, x ∈ seen') ∧
    (∀ e ∈ evs, (e.index "id").asStr = some (idOf e) ∧
      idOf e ∉ seen ∧ idOf e ∈ seen') ∧
    (evs.map idOf).Nodup := by
  unfold extract_results at h
  cases hdata : body.get "data" with
  | none =>
      rw [hdata] at h
      simp only [ExtractOut.ok.injEq] at h
      obtain ⟨rfl, rfl⟩ := h.symm
      exact ⟨fun x hx => hx, by simp, by simp⟩
  | some d =>
      rw [hdata] at h
      simp only at h
      cases harr : d.asArr with
      | none => rw [harr] at h; exact absurd h (by simp)
      | some events =>
          rw [harr] at h
          simp only at h
          cases hded : dedupEvents seen (events.map unpack_tags) with
          | none => rw [hded] at h; exact absurd h (by simp)
          | some p =>
              rw [hded] at h
              simp only [ExtractOut.ok.injEq] at h
              obtain ⟨h1, h2⟩ := h
              subst h1 h2
              exact ⟨dedupEvents_seen_subset _ _ _ _ hded,
                     dedupEvents_kept _ _ _ _ hded,
                     dedupEvents_nodup _ _ _ _ hded⟩

/-- Invariant of feeding a whole sequence of bodies through one source:
the seen set grows, every emitted id is novel relative to the starting
set and recorded in the final one, and all emitted ids are pairwise
distinct. -/
lemma runExtracts_spec :
    ∀ (bodies : List Json) (seen : List String) (out : List Json) (seenF : List String),
    runExtracts seen bodies = some (out, seenF) →
    (∀ x ∈ seen, x ∈ seenF) ∧
    (∀ e ∈ out, idOf e ∉ seen ∧ idOf e ∈ seenF) ∧
    (out.map idOf).Nodup := by
  intro bodies
  induction bodies with
  | nil =>
      intro seen out seenF h
      simp only [runExtracts, Option.some.injEq, Prod.mk.injEq] at h
      obtain ⟨h1, h2⟩ := h
      subst h1 h2
      exact ⟨fun x hx => hx, by simp, by simp⟩
  | cons body rest ih =>
      intro seen out seenF h
      simp only [runExtracts] at h
      split at h
      case h_2 => exact Option.noConfusion h
      case h_1 evs seen1 hx =>
          cases hrec : runExtracts seen1 rest with
          | none => rw [hrec] at h; exact Option.noConfusion h
          | some p =>
              rw [hrec] at h
              simp only [Option.map_some', Option.some.injEq] at h
              cases h
              have hfirst := extract_results_spec seen body evs seen1 hx
              have hrest := ih seen1 p.1 p.2 (by rw [hrec])
              refine ⟨fun x hxs => hrest.1 x (hfirst.1 x hxs), ?_, ?_⟩
              · intro e he
                rcases List.mem_append.mp he with h1 | h2
                · exact ⟨(hfirst.2.1 e h1).2.1,
                         hrest.1 (idOf e) (hfirst.2.1 e h1).2.2⟩
                · exact ⟨fun hin => (hrest.2.1 e h2).1 (hfirst.1 _ hin),
                         (hrest.2.1 e h2).2⟩
              · rw [List.map_append]
                refine List.Nodup.append hfirst.2.2 hrest.2.2 ?_
                intro x hx1 hx2
                rcases List.mem_map.mp hx1 with ⟨e1, he1, rfl⟩
                rcases List.mem_map.mp hx2 with ⟨e2, he2, heq⟩
                have h1 := (hfirst.2.1 e1 he1).2.2
                have h2 := (hrest.2.1 e2 he2).1
                rw [heq] at h2
                exact h2 h1

/-- Unfolding: `extract_results` on a body with no `data` field. -/
lemma extract_results_missing (seen : List String) (body : Json)
    (h : body.get "data" = none) : extract_results seen body = .ok [] seen := by
  unfold extract_results
  rw [h]

/-- Unfolding: `extract_results` on a body whose `data` is not an array. -/
lemma extract_results_not_array (seen : List String) (body d : Json)
    (hdata : body.get "data" = some d) (harr : d.asArr = none) :
    extract_results seen body = .schemaError "Log query data not a list" := by
  unfold extract_results
  rw [hdata]
  simp only
  rw [harr]

/-- Unfolding: `extract_results` on a well-shaped body runs the retain
pass over the unpacked events. -/
lemma extract_results_array (seen : List String) (body d : Json) (events : List Json)
    (hdata : body.get "data" = some d) (harr : d.asArr = some events) :
    extract_results seen body =
      match dedupEvents seen (events.map unpack_tags) with
      | none => .panicked
      | some (kept, seen') => .ok kept seen' := by
  unfold extract_results
  rw [hdata]
  simp only
  rw [harr]

/-- When every event carries a string id, the retain pass cannot panic. -/
lemma dedupEvents_isSome :
    ∀ (es : List Json) (seen : List String),
    (∀ e ∈ es, ((e.index "id").asStr).isSome) → (dedupEvents seen es).isSome := by
  intro es
  induction es with
  | nil => intro seen _; simp [dedupEvents]
  | cons e rest ih =>
      intro seen hall
      cases hid : (e.index "id").asStr with
      | none =>
          have := hall e (by simp)
          rw [hid] at this
          exact absurd this (by simp)
      | some id =>
          by_cases hc : seen.contains id = true
          · rw [dedupEvents_cons_seen seen e rest id hid hc]
            exact ih seen (fun x hx => hall x (by simp [hx]))
          · rw [dedupEvents_cons_new seen e rest id hid hc]
            have := ih (id :: seen) (fun x hx => hall x (by simp [hx]))
            cases hrec : dedupEvents (id :: seen) rest with
            | none => rw [hrec] at this; exact absurd this (by simp)
            | some p => simp [hrec]

/-- One event with a missing or non-string id panics the whole retain
pass, wherever it sits in the page. -/
lemma dedupEvents_eq_none_of_bad :
    ∀ (es : List Json) (seen : List String) (e : Json),
    e ∈ es → (e.index "id").asStr = none → dedupEvents seen es = none := by
  intro es
  induction es with
  | nil => intro seen e he _; exact absurd he (List.not_mem_nil e)
  | cons a rest ih =>
      intro seen e he hbad
      rcases List.mem_cons.mp he with rfl | hmem
      · exact dedupEvents_cons_bad seen e rest hbad
      · cases hid : (a.index "id").asStr with
        | none => exact dedupEvents_cons_bad seen a rest hid
        | some id =>
            by_cases hc : seen.contains id = true
            · rw [dedupEvents_cons_seen seen a rest id hid hc]
              exact ih seen e hmem hbad
            · rw [dedupEvents_cons_new seen a rest id hid hc]
              rw [ih (id :: seen) e hmem hbad]
              rfl

/-! ## C2 — `extract_results` failure behaviour -/

/-- C2 counterexample: the claim says a response body in which the
expected results array is *missing* makes `extract_results` fail with a
SchemaError; on the empty object (no `data` field at all) the code
instead succeeds with an empty batch. -/
theorem extract_results_missing_is_ok :
    (Json.obj []).get "data" = none ∧
    extract_results [] (Json.obj []) = ExtractOut.ok [] [] := by
  exact ⟨rfl, rfl⟩

/-- C2 (amended): `extract_results` succeeds with an empty batch when the
`data` field is missing; it returns the SchemaError-style failure exactly
when `data` is present but not an array; and it succeeds whenever `data`
is a well-formed array (every element carrying a string id). -/
theorem extract_results_error_behaviour :
    (∀ (seen : List String) (body : Json), body.get "data" = none →
      extract_results seen body = ExtractOut.ok [] seen) ∧
    (∀ (seen : List String) (body d : Json), body.get "data" = some d →
      d.asArr = none →
      extract_results seen body = ExtractOut.schemaError "Log query data not a list") ∧
    (∀ (seen : List String) (body d : Json) (events : List Json),
      body.get "data" = some d → d.asArr = some events →
      (∀ e ∈ events, ((e.index "id").asStr).isSome) →
      ∃ kept seen', extract_results seen body = ExtractOut.ok kept seen') := by
  refine ⟨extract_results_missing, extract_results_not_array, ?_⟩
  intro seen body d events hdata harr hall
  rw [extract_results_array seen body d events hdata harr]
  have hall' : ∀ e ∈ events.map unpack_tags, ((e.index "id").asStr).isSome := by
    intro e he
    rcases List.mem_map.mp he with ⟨a, ha, rfl⟩
    rw [unpack_tags_index_id]
    exact hall a ha
  have := dedupEvents_isSome (events.map unpack_tags) seen hall'
  cases hded : dedupEvents seen (events.map unpack_tags) with
  | none => rw [hded] at this; exact absurd this (by simp)
  | some p => exact ⟨p.1, p.2, by simp⟩

/-- C2 witness: the three branches of `extract_results_error_behaviour`
observed at concrete inputs. -/
theorem extract_results_error_behaviour_witness :
    extract_results [] (Json.obj [("x", Json.num 1)]) = ExtractOut.ok [] [] ∧
    extract_results [] (Json.obj [("data", Json.str "oops")]) =
      ExtractOut.schemaError "Log query data not a list" ∧
    ∃ kept seen',
      extract_results [] (Json.obj [("data", Json.arr [Json.obj [("id", Json.str "a")]])]) =
        ExtractOut.ok kept seen' :=
  ⟨extract_results_error_behaviour.1 [] _ rfl,
   extract_results_error_behaviour.2.1 [] _ (Json.str "oops") rfl rfl,
   extract_results_error_behaviour.2.2 [] _ (Json.arr [Json.obj [("id", Json.str "a")]])
      [Json.obj [("id", Json.str "a")]] rfl rfl (by decide)⟩

/-! ## C5 — dedup is exactly-once per id across a source's lifetime -/

/-- C5: for every sequence of response bodies fed to one query source,
the events emitted across all `extract_results` calls carry pairwise
distinct ids — every id is emitted at most once, so a repeated or
overlapping page contributes each record only once. -/
theorem extract_results_exactly_once (bodies out : List Json) (seenF : List String)
    (h : runExtracts [] bodies = some (out, seenF)) :
    (out.map idOf).Nodup :=
  (runExtracts_spec bodies [] out seenF h).2.2

/-- An event record `{id: <n>}`, as used by the spec's overlap scenario. -/
def evId (n : Nat) : Json := Json.obj [("id", Json.str (toString n))]

/-- A response page `{data: [...]}` carrying the given event ids. -/
def pageOf (ids : List Nat) : Json := Json.obj [("data", Json.arr (ids.map evId))]

/-- C5 witness: the spec's overlap scenario — pages `{1},{2}`, `{2},{3}`,
`{4}` — yields ids `1,2,3,4` each exactly once. -/
theorem extract_results_exactly_once_witness :
    ([evId 1, evId 2, evId 3, evId 4].map idOf).Nodup ∧
    [evId 1, evId 2, evId 3, evId 4].map idOf = ["1", "2", "3", "4"] :=
  ⟨extract_results_exactly_once [pageOf [1, 2], pageOf [2, 3], pageOf [4]]
      [evId 1, evId 2, evId 3, evId 4] ["4", "3", "2", "1"] rfl,
   rfl⟩

/-! ## C10 — `extract_results` panics on a missing or non-string id -/

/-- C10: whenever the `data` array of a response body contains an event
whose `id` field is missing or not a string, `extract_results` panics
(`event["id"].as_str().unwrap()`) instead of returning an error. -/
theorem extract_results_panics_on_bad_id (seen : List String) (body d : Json)
    (events : List Json) (e : Json) (hdata : body.get "data" = some d)
    (harr : d.asArr = some events) (he : e ∈ events)
    (hbad : (e.index "id").asStr = none) :
    extract_results seen body = ExtractOut.panicked := by
  rw [extract_results_array seen body d events hdata harr]
  have hbad' : ((unpack_tags e).index "id").asStr = none := by
    rw [unpack_tags_index_id]; exact hbad
  rw [dedupEvents_eq_none_of_bad (events.map unpack_tags) seen (unpack_tags e)
      (List.mem_map_of_mem unpack_tags he) hbad']

/-- C10 witness: a page containing `{id: 3}` (a number, not a string)
panics. -/
theorem extract_results_panics_on_bad_id_witness :
    extract_results [] (Json.obj [("data", Json.arr [Json.obj [("id", Json.num 3)]])]) =
      ExtractOut.panicked :=
  extract_results_panics_on_bad_id [] _ (Json.arr [Json.obj [("id", Json.num 3)]])
    [Json.obj [("id", Json.num 3)]] (Json.obj [("id", Json.num 3)]) rfl rfl
    (List.mem_singleton.mpr rfl) rfl

/-! ## C3 — `get_sink_id` and the output mode -/

/-- A single-stream (stdout) configuration that nevertheless carries a
split key, directly constructible from the CLI surface
(`-o stdout -k a`). -/
def stdoutWithSplitKey : OutputMode :=
  { mode := Mode.stdout
    split_key := some (JsonKey.fromString "a")
    format := LogFormat.structured
    default := "output.log" }

/-- C3 counterexample: in single-stream (stdout) mode with a configured
split KeyPath, `get_sink_id` does *not* return one fixed stream key for
every event — it still performs the KeyPath lookup, so two events with
different key values get different sink ids. -/
theorem get_sink_id_stdout_not_fixed :
    get_sink_id stdoutWithSplitKey (Json.obj [("a", Json.str "x")]) = "x" ∧
    get_sink_id stdoutWithSplitKey (Json.obj [("a", Json.str "y")]) = "y" ∧
    get_sink_id stdoutWithSplitKey (Json.obj [("a", Json.str "x")]) ≠
      get_sink_id stdoutWithSplitKey (Json.obj [("a", Json.str "y")]) :=
  ⟨rfl, rfl, by decide⟩

/-- C3 (amended): `get_sink_id` never inspects the output mode: in both
modes it returns the configured default when no split KeyPath is set,
and otherwise the KeyPath lookup result, falling back to the default
when the path is absent or resolves to a non-string value. -/
theorem get_sink_id_spec :
    (∀ (m m' : Mode) (sk : Option JsonKey) (f f' : LogFormat) (d : String) (ev : Json),
      get_sink_id ⟨m, sk, f, d⟩ ev = get_sink_id ⟨m', sk, f', d⟩ ev) ∧
    (∀ (m : Mode) (f : LogFormat) (d : String) (ev : Json),
      get_sink_id ⟨m, none, f, d⟩ ev = d) ∧
    (∀ (m : Mode) (f : LogFormat) (d : String) (k : JsonKey) (ev : Json),
      (k.get ev).bind Json.asStr = none → get_sink_id ⟨m, some k, f, d⟩ ev = d) ∧
    (∀ (m : Mode) (f : LogFormat) (d : String) (k : JsonKey) (ev : Json) (s : String),
      (k.get ev).bind Json.asStr = some s → get_sink_id ⟨m, some k, f, d⟩ ev = s) := by
  refine ⟨fun m m' sk f f' d ev => rfl, fun m f d ev => rfl, ?_, ?_⟩
  · intro m f d k ev h
    simp [get_sink_id, h]
  · intro m f d k ev s h
    simp [get_sink_id, h]

/-- C3 witness: the mode-independence and both fallback branches at
concrete inputs (file vs stdout mode, absent path, non-string value,
string value). -/
theorem get_sink_id_spec_witness :
    get_sink_id ⟨Mode.stdout, some (JsonKey.fromString "a"), LogFormat.structured, "dflt"⟩
        (Json.obj [("a", Json.str "x")]) =
      get_sink_id ⟨Mode.file, some (JsonKey.fromString "a"), LogFormat.default, "dflt"⟩
        (Json.obj [("a", Json.str "x")]) ∧
    get_sink_id ⟨Mode.file, none, LogFormat.structured, "dflt"⟩ (Json.obj []) = "dflt" ∧
    get_sink_id ⟨Mode.file, some (JsonKey.fromString "a"), LogFormat.structured, "dflt"⟩
        (Json.obj [("a", Json.num 7)]) = "dflt" ∧
    get_sink_id ⟨Mode.file, some (JsonKey.fromString "a"), LogFormat.structured, "dflt"⟩
        (Json.obj [("a", Json.str "x")]) = "x" :=
  ⟨get_sink_id_spec.1 Mode.stdout Mode.file _ LogFormat.structured LogFormat.default
      "dflt" _,
   get_sink_id_spec.2.1 Mode.file LogFormat.structured "dflt" (Json.obj []),
   get_sink_id_spec.2.2.1 Mode.file LogFormat.structured "dflt"
      (JsonKey.fromString "a") (Json.obj [("a", Json.num 7)]) rfl,
   get_sink_id_spec.2.2.2 Mode.file LogFormat.structured "dflt"
      (JsonKey.fromString "a") (Json.obj [("a", Json.str "x")]) "x" rfl⟩

/-! ## C4 — rate-limit rescaling after a page -/

/-- C4: with budget remaining, `scale_remaining_by` sets
`next_request_allowed` to `now` plus the desired wait
`period * (1 - returned/limit)` capped by the (saturated) time remaining
until the current reset and clamped to be non-negative — in particular
the new instant is never in the past; with the budget exhausted it
changes nothing, so `next_request_allowed` never drops below the
header-derived reset instant. -/
theorem scale_remaining_by_spec (s : RateLimitStatus) (now : ℚ) (returned limit : Nat) :
    (s.remaining_budget > 0 →
      scale_remaining_by s now returned limit =
        { s with next_request_allowed :=
            now + max (min (s.period * (1 - (returned : ℚ) / (limit : ℚ)))
                           (max (s.next_request_allowed - now) 0)) 0 } ∧
      now ≤ (scale_remaining_by s now returned limit).next_request_allowed) ∧
    (s.remaining_budget = 0 → scale_remaining_by s now returned limit = s) := by
  constructor
  · intro hpos
    have heq : scale_remaining_by s now returned limit =
        { s with next_request_allowed :=
            now + max (min (s.period * (1 - (returned : ℚ) / (limit : ℚ)))
                           (max (s.next_request_allowed - now) 0)) 0 } := by
      unfold scale_remaining_by
      rw [if_pos hpos]
    refine ⟨heq, ?_⟩
    rw [heq]
    exact le_add_of_nonneg_right (le_max_right _ 0)
  · intro hzero
    unfold scale_remaining_by
    rw [if_neg (by omega)]

/-- C4 witness: a state with budget left gets the rescaled instant; the
same state with zero budget is untouched. -/
theorem scale_remaining_by_spec_witness :
    scale_remaining_by ⟨10000, 5, 3000⟩ 1000 500 1000 =
      { period := 10000, remaining_budget := 5,
        next_request_allowed :=
          1000 + max (min (10000 * (1 - (500 : ℚ) / 1000)) (max (3000 - 1000) 0)) 0 } ∧
    scale_remaining_by ⟨10000, 0, 3000⟩ 1000 500 1000 = ⟨10000, 0, 3000⟩ :=
  ⟨((scale_remaining_by_spec ⟨10000, 5, 3000⟩ 1000 500 1000).1 (by norm_num)).1,
   (scale_remaining_by_spec ⟨10000, 0, 3000⟩ 1000 500 1000).2 rfl⟩

/-! ## C6 — Follow-mode windows overlap by ten seconds -/

/-- C6: a Follow generator started at `T` with history `H` first yields
exactly the window `[T − H, T)`; and after any call, the next call
yields a window starting ten seconds before the previous window's end,
ending at the current instant. -/
theorem follow_window_overlap (T : Int) (H : Nat) (now1 : Int) (f : Follow)
    (now2 now3 : Int) :
    ((Follow.new T H).next now1).1 = (T - (H : Int), T) ∧
    (((f.next now2).2).next now3).1.1 = (f.next now2).1.2 - 10 ∧
    (((f.next now2).2).next now3).1.2 = now3 := by
  refine ⟨?_, ?_, ?_⟩ <;> simp [Follow.new, Follow.next]

/-! ## C7 — Snapshot yields one window, then the source is exhausted -/

/-- C7: a Snapshot-mode source hands out exactly one request — for the
window `(from, from + history)` — and `construct_query` returns `none`
on every later call (the generator state is exhausted and never
changes); a Follow-mode source never returns `none`. -/
theorem snapshot_single_window :
    (∀ (dom q : String) (from_ : Int) (W : Nat) (now : Int),
      construct_query (LogSourceState.new dom q (.snapshot (Snapshot.new from_ W))) now =
        some (Request.search ("https://" ++ dom ++ "/api/v2/logs/events/search")
                from_ (from_ + (W : Int)) q 1000,
              { LogSourceState.new dom q (.snapshot (Snapshot.new from_ W)) with
                  mode := .snapshot { next_window_start := from_, next_window_end := none } })) ∧
    (∀ (src : LogSourceState) (s : Snapshot) (now : Int),
      src.mode = .snapshot s → s.next_window_end = none →
      construct_query src now = none) ∧
    (∀ (src : LogSourceState) (f : Follow) (now : Int),
      src.mode = .follow f → (construct_query src now).isSome) := by
  refine ⟨?_, ?_, ?_⟩
  · intro dom q from_ W now
    rfl
  · intro src s now hmode hend
    unfold construct_query
    rw [hmode]
    simp [WindowMode.next, Snapshot.next, hend]
  · intro src f now hmode
    unfold construct_query
    rw [hmode]
    simp [WindowMode.next]

/-- C7 witness: a concrete Snapshot source produces its single request
and then `none`; a concrete Follow source keeps producing requests. -/
theorem snapshot_single_window_witness :
    construct_query (LogSourceState.new "d" "q" (.snapshot (Snapshot.new 5 60))) 0 =
      some (Request.search "https://d/api/v2/logs/events/search" 5 65 "q" 1000,
            { LogSourceState.new "d" "q" (.snapshot (Snapshot.new 5 60)) with
                mode := .snapshot { next_window_start := 5, next_window_end := none } }) ∧
    construct_query
      { LogSourceState.new "d" "q" (.snapshot (Snapshot.new 5 60)) with
          mode := .snapshot { next_window_start := 5, next_window_end := none } } 99 = none ∧
    (construct_query (LogSourceState.new "d" "q" (.follow (Follow.new 100 60))) 100).isSome :=
  ⟨snapshot_single_window.1 "d" "q" 5 60 0,
   snapshot_single_window.2.1 _ { next_window_start := 5, next_window_end := none } 99
      rfl rfl,
   snapshot_single_window.2.2 _ (Follow.new 100 60) 100 rfl⟩

/-! ## C8 — field-projection formatting -/

/-- Join already-rendered components with a separator (no leading
separator before the first component). -/
def joinSep (sep : String) : List String → String
  | [] => ""
  | x :: xs => xs.foldl (fun out s => out ++ sep ++ s) x

/-- The event of the spec's formatter test. -/
def tsEvent : Json :=
  Json.obj [("attributes",
    Json.obj [("timestamp", Json.str "t"), ("status", Json.str "OK"),
              ("message", Json.str "m")])]

/-- C8: the default policy renders the test event as exactly
`"t | OK | m"`; in general a non-empty key list renders as the
separator-join of each key's rendering in order, and a key whose path
has no match in the event renders as the literal `KEY_NOT_FOUND` in its
position rather than failing. -/
theorem format_text_projection :
    LogFormat.default.format tsEvent = some "t | OK | m" ∧
    (∀ (sep : String) (k : JsonKey) (ks : List JsonKey) (event : Json),
      format_text sep (k :: ks) event =
        some (joinSep sep ((k :: ks).map (renderKey event)))) ∧
    (∀ (event : Json) (key : JsonKey),
      key.get event = none → renderKey event key = "KEY_NOT_FOUND") := by
  refine ⟨rfl, ?_, ?_⟩
  · intro sep k ks event
    simp [format_text, joinSep, List.foldl_map]
  · intro event key h
    simp [renderKey, h]

/-- C8 witness: the general shape and the `KEY_NOT_FOUND` rendering at a
concrete event and key list with one matching and one missing path. -/
theorem format_text_projection_witness :
    format_text " | " [JsonKey.fromString "a", JsonKey.fromString "nope"]
        (Json.obj [("a", Json.str "hit")]) =
      some (joinSep " | "
        ([JsonKey.fromString "a", JsonKey.fromString "nope"].map
          (renderKey (Json.obj [("a", Json.str "hit")])))) ∧
    renderKey (Json.obj [("a", Json.str "hit")]) (JsonKey.fromString "nope") =
      "KEY_NOT_FOUND" :=
  ⟨format_text_projection.2.1 " | " (JsonKey.fromString "a")
      [JsonKey.fromString "nope"] (Json.obj [("a", Json.str "hit")]),
   format_text_projection.2.2 (Json.obj [("a", Json.str "hit")])
      (JsonKey.fromString "nope") rfl⟩

/-! ## C9 — the empty key list panics, and is reachable -/

/-- C9: an empty format-config file produces a Text format with an empty
key list, and formatting any event with an empty key list panics
(`keys.split_first().unwrap()`, modelled as `none`). -/
theorem format_text_empty_keys_panics :
    format_config_of_contents "" = LogFormat.text " | " [] ∧
    (∀ (sep : String) (event : Json), format_text sep [] event = none) ∧
    (∀ (event : Json), (LogFormat.text " | " []).format event = none) :=
  ⟨rfl, fun _ _ => rfl, fun _ => rfl⟩

/-! ## C1 — what the loop does after a 429 -/

/-- A Snapshot-mode source over the window `[0, 60)`. -/
def snapshotSource : LogSourceState :=
  LogSourceState.new "api.datadoghq.eu" "q" (.snapshot (Snapshot.new 0 60))

/-- A Follow-mode source started at instant `1000` with 60s history. -/
def followSource : LogSourceState :=
  LogSourceState.new "api.datadoghq.eu" "q" (.follow (Follow.new 1000 60))

/-- A `429 Too Many Requests` response. -/
def resp429 : Response := { status := 429, body := Json.null }

/-- C1 (code bug, evaluated at the failing input): after a 429 on the
first request of an iteration the loop does *not* retry the same window.
A Snapshot source whose single request gets a 429 issues that one
request and then stops — `construct_query` consumed the only window
before the status was known, so there is no retry at all and the
snapshot is lost; a Follow source issues a *different* window
(`[990, 1005)` instead of the 429'd `[940, 1000)`) on the next
iteration.  (A 429 on a continuation hop does re-request the same URL,
which is the part of the claim the code honours.) -/
theorem tailer_429_window_not_retried :
    runTailer (Phase.start snapshotSource) [(100, resp429), (200, resp429)] =
      ([Request.search "https://api.datadoghq.eu/api/v2/logs/events/search" 0 60 "q" 1000],
       []) ∧
    runTailer (Phase.start followSource) [(1000, resp429), (1005, resp429)] =
      ([Request.search "https://api.datadoghq.eu/api/v2/logs/events/search" 940 1000 "q" 1000,
        Request.search "https://api.datadoghq.eu/api/v2/logs/events/search" 990 1005 "q" 1000],
       []) :=
  ⟨rfl, rfl⟩

end Dogtail
